import Mathlib

/-
Verification of the Meeting-Room-Booking backend (src/backend).

Shallow embedding of the Python sources:
  helpers.py   : ensure_utc
  main.py      : rooms, bookings store, get_room_bookings, create_booking,
                 cancel_booking
  services.py  : create_booking_service

A Python `datetime` is modelled as a wall-clock instant in microseconds
since 0001-01-01T00:00:00 (the proleptic Gregorian calendar, exactly the
calendar used by the Python `datetime` type) together with an optional UTC offset in
microseconds; `none` models a naive datetime, `some o` an aware one whose
`utcoffset()` is `o`.

Python comparison and subtraction of two datetimes of the same kind compare
absolute instants for aware values and wall clocks for naive values; both
are `cmpKey` below.  Mixing a naive and an aware datetime in `-`, `<`, `<=`
raises `TypeError`; `create_booking` in main.py performs such a subtraction
before normalizing, so its model returns `Option`, with `none` standing for
the unhandled `TypeError`.

Durations in main.py and services.py are computed as the float
`(end - start).total_seconds() / 3600` and compared with `0` and `3`.
Since `x.total_seconds() = micros / 10^6` and `10800.0 / 3600 = 3.0`
exactly, and IEEE division by 3600 preserves the order against these two
exactly representable thresholds for every representable datetime
difference, the float comparisons `duration <= 0` and `duration > 3` hold
iff the integer comparisons `micros <= 0` and `micros > 10800 * 10^6` hold;
the model uses the integer forms.
-/

namespace MRB

def usPerSecond : Int := 1000000

def usPerMinute : Int := 60000000

def usPerHour : Int := 3600000000

def usPerDay : Int := 86400000000

/-- Model of a Python `datetime`: `wall` is the wall-clock reading in
microseconds since 0001-01-01T00:00:00; `tz = none` models a naive value,
`tz = some o` an aware value with UTC offset `o` microseconds. -/
structure PyDateTime where
  wall : Int
  tz : Option Int
deriving DecidableEq

/-- The key Python uses to compare or subtract two datetimes of the same
kind: the absolute instant `wall - offset` for aware values, the wall clock
itself for naive values. -/
def cmpKey (dt : PyDateTime) : Int :=
  dt.wall - (dt.tz.getD 0)

/-- Whether two datetimes are both naive or both aware; when this is false,
Python raises `TypeError` on `-`, `<`, `<=`, `>=` between them. -/
def sameKind (a b : PyDateTime) : Bool :=
  a.tz.isSome == b.tz.isSome

/-- The normalization main.py applies inline:
`if dt.tzinfo is None: dt = dt.replace(tzinfo=timezone.utc)`.
A naive value is tagged as UTC with its wall clock unchanged; an aware
value is returned unchanged (its own wall clock and offset are kept). -/
def tagUtcIfNaive (dt : PyDateTime) : PyDateTime :=
  match dt.tz with
  | none => ⟨dt.wall, some 0⟩
  | some _ => dt

/-- helpers.ensure_utc: a naive value is tagged as UTC (wall clock
unchanged); an aware value is converted with `astimezone(timezone.utc)`,
which preserves the absolute instant and sets the offset to zero. -/
def ensure_utc (dt : PyDateTime) : PyDateTime :=
  match dt.tz with
  | none => ⟨dt.wall, some 0⟩
  | some o => ⟨dt.wall - o, some 0⟩

/-- Python `dt.minute`: read off the wall clock. -/
def minuteOf (dt : PyDateTime) : Int :=
  (dt.wall.ediv usPerMinute).emod 60

/-- Python `dt.second`: read off the wall clock. -/
def secondOf (dt : PyDateTime) : Int :=
  (dt.wall.ediv usPerSecond).emod 60

/-- Python `dt.microsecond`: read off the wall clock. -/
def microsecondOf (dt : PyDateTime) : Int :=
  dt.wall.emod usPerSecond

/-- Python `dt.date()` as a day ordinal: day 0 is 0001-01-01 (so this is
`date.toordinal() - 1`); calendar dates compare by this ordinal. -/
def dateOf (dt : PyDateTime) : Int :=
  dt.wall.ediv usPerDay

/-- The proleptic Gregorian year containing day ordinal `days`
(day 0 = 0001-01-01), by the standard civil-from-days computation. -/
def yearOfDay (days : Int) : Int :=
  let z := days + 306
  let era := z.ediv 146097
  let doe := z - era * 146097
  let yoe := (doe - doe.ediv 1460 + doe.ediv 36524 - doe.ediv 146096).ediv 365
  let y := yoe + era * 400
  let doy := doe - (365 * yoe + yoe.ediv 4 - yoe.ediv 100)
  let mp := (5 * doy + 2).ediv 153
  let m := mp + (if mp < 10 then 3 else -9)
  if m ≤ 2 then y + 1 else y

/-- Python `dt.year`: the calendar year of the wall clock. -/
def yearOf (dt : PyDateTime) : Int :=
  yearOfDay (dateOf dt)

/-- One stored booking, the dict
`{"room": ..., "start": ..., "end": ..., "code": ...}`;
`stop` models the Python key `"end"` (`end` is reserved in Lean). -/
structure Booking where
  room : String
  start : PyDateTime
  stop : PyDateTime
  code : String
deriving DecidableEq

/-- The in-memory store `bookings = {}` of main.py: a Python dict from room
name to the list of bookings of that room, modelled as an association list
in key-insertion order. -/
abbrev Store := List (String × List Booking)

/-- Python `bookings.get(room, [])`. -/
def storeGet (st : Store) (room : String) : List Booking :=
  match st with
  | [] => []
  | (r, l) :: rest => if r = room then l else storeGet rest room

/-- Python `bookings[room] = l`: update the existing key in place, or append
a new key at the end. -/
def storeSet (st : Store) (room : String) (l : List Booking) : Store :=
  match st with
  | [] => [(room, l)]
  | (r, l0) :: rest =>
      if r = room then (r, l) :: rest else (r, l0) :: storeSet rest room l

/-- The room registry `rooms = ["Room A", "Room B", "Room C"]` of main.py.
services.py imports the same registry from storage.py, which is absent from
the sources; modelled from the spec: the default registry is
`\x7b"Room A", "Room B", "Room C"\x7d`. -/
def rooms : List String := ["Room A", "Room B", "Room C"]

/-- `MAX_DURATION_HOURS = 3`. -/
def MAX_DURATION_HOURS : Int := 3

/-- The seven typed creation failures (HTTPExceptions raised by the
validation pipeline), identified by their detail messages. -/
inductive BFailure
  | roomNotFound
  | invalidInterval
  | durationExceeded
  | pastBooking
  | misalignedStart
  | outOfYearRange
  | slotConflict
deriving DecidableEq

/-- Outcome of a creation attempt: the created booking or a typed failure. -/
inductive CreateResult
  | ok (b : Booking)
  | err (f : BFailure)
deriving DecidableEq

/-- The conflict test of both drafts, on already-prepared datetimes:
`not (end <= existing_start or start >= existing_end)`; all four values are
aware at this point, so the comparisons are on absolute instants. -/
def overlapsB (s e bs be : PyDateTime) : Bool :=
  !(decide (cmpKey e ≤ cmpKey bs) || decide (cmpKey s ≥ cmpKey be))

/-- main.py `create_booking`, with the ambient inputs made explicit:
`st` is the current store, `now` the instant `datetime.now(timezone.utc)`
returns (an aware UTC value, so its wall clock equals its instant), `code`
the fresh `str(uuid4())`.  Returns `none` for the unhandled `TypeError`
Python raises when `end - start` mixes a naive and an aware value, and
otherwise the outcome together with the store after the call.  The checks
appear exactly in source order; note that the duration is computed before
any normalization, and that the minute/second/microsecond and year checks
read the wall clock of `tagUtcIfNaive start`, i.e. the original-zone wall
clock for aware inputs. -/
def create_booking (st : Store) (room : String) (s e : PyDateTime)
    (now : Int) (code : String) : Option (CreateResult × Store) :=
  if room ∈ rooms then
    if sameKind s e then
      let dur := cmpKey e - cmpKey s
      if dur ≤ 0 then some (.err .invalidInterval, st)
      else if dur > MAX_DURATION_HOURS * usPerHour then
        some (.err .durationExceeded, st)
      else if cmpKey s ≥ cmpKey e then some (.err .invalidInterval, st)
      else
        let sN := tagUtcIfNaive s
        let eN := tagUtcIfNaive e
        if cmpKey sN < now then some (.err .pastBooking, st)
        else if minuteOf sN ≠ 0 ∨ secondOf sN ≠ 0 ∨ microsecondOf sN ≠ 0 then
          some (.err .misalignedStart, st)
        else if yearOf sN ≠ yearOfDay (now.ediv usPerDay) ∨
            yearOf eN ≠ yearOfDay (now.ediv usPerDay) then
          some (.err .outOfYearRange, st)
        else
          let l := storeGet st room
          if l.any (fun b =>
              overlapsB sN eN (tagUtcIfNaive b.start) (tagUtcIfNaive b.stop))
          then some (.err .slotConflict, st)
          else
            let nb : Booking := ⟨room, sN, eN, code⟩
            some (.ok nb, storeSet st room (l ++ [nb]))
    else none
  else some (.err .roomNotFound, st)

/-- services.py `create_booking_service`, with the same ambient inputs made
explicit.  Both timestamps are passed through `ensure_utc` before any
arithmetic, so the function is total; every later check reads the
UTC-normalized values. -/
def create_booking_service (st : Store) (room : String) (s e : PyDateTime)
    (now : Int) (code : String) : CreateResult × Store :=
  if room ∈ rooms then
    let sN := ensure_utc s
    let eN := ensure_utc e
    let dur := cmpKey eN - cmpKey sN
    if dur ≤ 0 then (.err .invalidInterval, st)
    else if dur > MAX_DURATION_HOURS * usPerHour then
      (.err .durationExceeded, st)
    else if cmpKey sN < now then (.err .pastBooking, st)
    else if minuteOf sN ≠ 0 ∨ secondOf sN ≠ 0 ∨ microsecondOf sN ≠ 0 then
      (.err .misalignedStart, st)
    else if yearOf sN ≠ yearOfDay (now.ediv usPerDay) ∨
        yearOf eN ≠ yearOfDay (now.ediv usPerDay) then
      (.err .outOfYearRange, st)
    else
      let l := storeGet st room
      if l.any (fun b =>
          overlapsB sN eN (ensure_utc b.start) (ensure_utc b.stop))
      then (.err .slotConflict, st)
      else
        let nb : Booking := ⟨room, sN, eN, code⟩
        (.ok nb, storeSet st room (l ++ [nb]))
  else (.err .roomNotFound, st)

/-- The payload cancel_booking returns on success: the `room`, `start` and
`end` fields of the removed booking dict. -/
structure CancelInfo where
  room : String
  start : PyDateTime
  stop : PyDateTime
deriving DecidableEq

/-- Remove the first booking whose `code` matches, returning it and the
remaining list.  This is the effect of main.py scanning `room_bookings` and
calling `room_bookings.remove(booking)` on the first code match: `remove`
deletes the first value-equal dict, and an earlier value-equal dict would
carry the same code and would have matched first. -/
def removeFirstCode (code : String) : List Booking → Option (Booking × List Booking)
  | [] => none
  | b :: rest =>
      if b.code = code then some (b, rest)
      else
        match removeFirstCode code rest with
        | none => none
        | some (f, rest2) => some (f, b :: rest2)

/-- main.py `cancel_booking`: scan the rooms of the dict in insertion order,
remove the first booking whose code matches and return its data; return
`none` (the 404 "Invalid cancellation code") and the untouched store when no
booking matches. -/
def cancel_booking (st : Store) (code : String) : Option CancelInfo × Store :=
  match st with
  | [] => (none, [])
  | (r, l) :: rest =>
      match removeFirstCode code l with
      | some (b, l2) => (some ⟨b.room, b.start, b.stop⟩, (r, l2) :: rest)
      | none =>
          let p := cancel_booking rest code
          (p.1, (r, l) :: p.2)

/-- main.py `get_room_bookings`: fetch the list for the room (empty for an
unknown room), and filter by `start_date <= b["start"].date() <= end_date`
only when both optional query dates are supplied. -/
def get_room_bookings (st : Store) (room : String)
    (startDate endDate : Option Int) : List Booking :=
  let l := storeGet st room
  match startDate, endDate with
  | some sd, some ed =>
      l.filter (fun b => decide (sd ≤ dateOf b.start) && decide (dateOf b.start ≤ ed))
  | _, _ => l

/-- Stores reachable from the empty store by any sequence of create and
cancel calls, each with arbitrary inputs (for create, any clock reading and
any fresh code). -/
inductive Reachable : Store → Prop
  | empty : Reachable []
  | create {st : Store} (room : String) (s e : PyDateTime) (now : Int)
      (code : String) {res : CreateResult} {st2 : Store} :
      Reachable st → create_booking st room s e now code = some (res, st2) →
      Reachable st2
  | cancel {st : Store} (code : String) :
      Reachable st → Reachable (cancel_booking st code).2

/-- The half-open intervals of two bookings, read as absolute instants, do
not intersect: one ends no later than the other starts. -/
def disjointB (a b : Booking) : Prop :=
  cmpKey a.stop ≤ cmpKey b.start ∨ cmpKey b.stop ≤ cmpKey a.start

/-- No booking stored anywhere in `st` carries cancellation code `c`. -/
def freshCode (st : Store) (c : String) : Prop :=
  ∀ p ∈ st, ∀ bk ∈ p.2, bk.code ≠ c

instance (st : Store) (c : String) : Decidable (freshCode st c) := by
  unfold freshCode; infer_instance

/-! Concrete values used by the closed witness statements: the clock reads
2024-06-01T10:00:00Z (day ordinal 739037 in the day-0 = 0001-01-01 scheme),
and `wAt h` is the aware UTC datetime at hour `h` of that day. -/

def wDay : Int := 739037

def wTime (h : Int) : Int := wDay * usPerDay + h * usPerHour

def wNow : Int := wTime 10

def wAt (h : Int) : PyDateTime := ⟨wTime h, some 0⟩

def wBooking1 : Booking := ⟨"Room A", wAt 11, wAt 12, "c1"⟩

def wStore1 : Store := [("Room A", [wBooking1])]

/-! Infrastructure lemmas about the embedding. -/

theorem cmpKey_tagUtcIfNaive (dt : PyDateTime) :
    cmpKey (tagUtcIfNaive dt) = cmpKey dt := by
  cases dt with
  | mk w tz => cases tz <;> simp [tagUtcIfNaive, cmpKey, Option.getD]

theorem cmpKey_ensure_utc (dt : PyDateTime) :
    cmpKey (ensure_utc dt) = cmpKey dt := by
  cases dt with
  | mk w tz => cases tz <;> simp [ensure_utc, cmpKey, Option.getD]

theorem tz_ensure_utc (dt : PyDateTime) : (ensure_utc dt).tz = some 0 := by
  cases dt with
  | mk w tz => cases tz <;> simp [ensure_utc]

theorem overlapsB_tag (s e bs be : PyDateTime) :
    overlapsB s e (tagUtcIfNaive bs) (tagUtcIfNaive be) = overlapsB s e bs be := by
  simp [overlapsB, cmpKey_tagUtcIfNaive]

theorem overlapsB_ensure (s e bs be : PyDateTime) :
    overlapsB s e (ensure_utc bs) (ensure_utc be) = overlapsB s e bs be := by
  simp [overlapsB, cmpKey_ensure_utc]

theorem overlapsB_eq_true {s e bs be : PyDateTime} :
    overlapsB s e bs be = true ↔ cmpKey bs < cmpKey e ∧ cmpKey s < cmpKey be := by
  simp [overlapsB]

theorem overlapsB_eq_false {s e bs be : PyDateTime} :
    overlapsB s e bs be = false ↔ cmpKey e ≤ cmpKey bs ∨ cmpKey be ≤ cmpKey s := by
  simp [overlapsB]
  omega

theorem storeGet_storeSet (st : Store) (k : String) (v : List Booking)
    (r : String) :
    storeGet (storeSet st k v) r = if k = r then v else storeGet st r := by
  induction st with
  | nil =>
      by_cases h : k = r <;> simp [storeSet, storeGet, h]
  | cons p rest ih =>
      obtain ⟨r0, l0⟩ := p
      by_cases h0 : r0 = k
      · subst h0
        by_cases h : r0 = r <;> simp [storeSet, storeGet, h]
      · by_cases h : r0 = r
        · subst h
          simp [storeSet, storeGet, h0, Ne.symm h0]
        · simp [storeSet, storeGet, h0, h, ih]

theorem storeGet_eq_nil (st : Store) (room : String)
    (h : ∀ p ∈ st, p.1 ≠ room) : storeGet st room = [] := by
  induction st with
  | nil => rfl
  | cons p rest ih =>
      obtain ⟨r0, l0⟩ := p
      have h0 : r0 ≠ room := h (r0, l0) (List.mem_cons_self _ _)
      simp only [storeGet, h0, if_false]
      exact ih fun q hq => h q (List.mem_cons_of_mem _ hq)

theorem removeFirstCode_none (c : String) (l : List Booking)
    (h : ∀ bk ∈ l, bk.code ≠ c) : removeFirstCode c l = none := by
  induction l with
  | nil => rfl
  | cons b rest ih =>
      have hb : b.code ≠ c := h b (List.mem_cons_self _ _)
      simp only [removeFirstCode, hb, if_false]
      rw [ih fun bk hbk => h bk (List.mem_cons_of_mem _ hbk)]

theorem removeFirstCode_sublist {c : String} {l l2 : List Booking}
    {b : Booking} (h : removeFirstCode c l = some (b, l2)) : l2.Sublist l := by
  induction l generalizing l2 with
  | nil => simp [removeFirstCode] at h
  | cons b0 rest ih =>
      by_cases hb : b0.code = c
      · simp only [removeFirstCode, hb, if_true] at h
        cases h
        exact List.sublist_cons_self _ _
      · simp only [removeFirstCode, hb, if_false] at h
        cases hrec : removeFirstCode c rest with
        | none => rw [hrec] at h; cases h
        | some p =>
            obtain ⟨f, rest2⟩ := p
            rw [hrec] at h
            cases h
            exact (ih hrec).cons₂ b0

theorem removeFirstCode_append (c : String) (l : List Booking) (b : Booking)
    (hfresh : ∀ bk ∈ l, bk.code ≠ c) (hb : b.code = c) :
    removeFirstCode c (l ++ [b]) = some (b, l) := by
  induction l with
  | nil => simp [removeFirstCode, hb]
  | cons b0 rest ih =>
      have h0 : b0.code ≠ c := hfresh b0 (List.mem_cons_self _ _)
      have ih2 := ih fun bk hbk => hfresh bk (List.mem_cons_of_mem _ hbk)
      simp [removeFirstCode, h0, ih2]

theorem cancel_none_of_fresh (st : Store) (c : String) (h : freshCode st c) :
    cancel_booking st c = (none, st) := by
  induction st with
  | nil => rfl
  | cons p rest ih =>
      obtain ⟨r0, l0⟩ := p
      have h0 : removeFirstCode c l0 = none :=
        removeFirstCode_none c l0 (h (r0, l0) (List.mem_cons_self _ _))
      have hrest : freshCode rest c := fun q hq => h q (List.mem_cons_of_mem _ hq)
      simp [cancel_booking, h0, ih hrest]

theorem cancel_fst_none (st : Store) (c : String)
    (h : (cancel_booking st c).1 = none) : (cancel_booking st c).2 = st := by
  induction st with
  | nil => rfl
  | cons p rest ih =>
      obtain ⟨r0, l0⟩ := p
      cases hrm : removeFirstCode c l0 with
      | some q =>
          obtain ⟨b, l2⟩ := q
          simp [cancel_booking, hrm] at h
      | none =>
          simp only [cancel_booking, hrm] at h ⊢
          rw [ih h]

theorem storeGet_cancel_sublist (st : Store) (c : String) (r : String) :
    (storeGet (cancel_booking st c).2 r).Sublist (storeGet st r) := by
  induction st with
  | nil => simp [cancel_booking]
  | cons p rest ih =>
      obtain ⟨r0, l0⟩ := p
      cases hrm : removeFirstCode c l0 with
      | some q =>
          obtain ⟨b, l2⟩ := q
          simp only [cancel_booking, hrm]
          by_cases h : r0 = r
          · simp only [storeGet, h, if_true]
            exact removeFirstCode_sublist hrm
          · simp only [storeGet, h, if_false]
            exact List.Sublist.refl _
      | none =>
          simp only [cancel_booking, hrm]
          by_cases h : r0 = r
          · simp only [storeGet, h, if_true]
            exact List.Sublist.refl _
          · simp only [storeGet, h, if_false]
            exact ih

theorem freshCode_storeSet (st : Store) (c : String) (k : String)
    (v : List Booking) (h : freshCode st c) (hv : ∀ bk ∈ v, bk.code ≠ c) :
    freshCode (storeSet st k v) c := by
  induction st with
  | nil =>
      intro p hp
      simp only [storeSet, List.mem_singleton] at hp
      subst hp
      exact hv
  | cons q rest ih =>
      obtain ⟨r0, l0⟩ := q
      have hrest : freshCode rest c := fun p hp => h p (List.mem_cons_of_mem _ hp)
      by_cases h0 : r0 = k
      · subst h0
        intro p hp
        simp only [storeSet, if_true, List.mem_cons] at hp
        rcases hp with hp | hp
        · subst hp; exact hv
        · exact h p (List.mem_cons_of_mem _ hp)
      · intro p hp
        simp only [storeSet, h0, if_false, List.mem_cons] at hp
        rcases hp with hp | hp
        · subst hp; exact h (r0, l0) (List.mem_cons_self _ _)
        · exact ih hrest p hp

theorem storeGet_fresh (st : Store) (c : String) (r : String)
    (h : freshCode st c) : ∀ bk ∈ storeGet st r, bk.code ≠ c := by
  induction st with
  | nil => intro bk hbk; simp [storeGet] at hbk
  | cons p rest ih =>
      obtain ⟨r0, l0⟩ := p
      by_cases h0 : r0 = r
      · simp only [storeGet, h0, if_true]
        exact h (r0, l0) (List.mem_cons_self _ _)
      · simp only [storeGet, h0, if_false]
        exact ih fun q hq => h q (List.mem_cons_of_mem _ hq)

/-! Claim theorems. -/

/-- C7: the Time Normalizer `ensure_utc` is total (it is a plain Lean
function over all `PyDateTime` values) and satisfies: the result is always
tagged UTC; the absolute instant is always preserved (so an aware input
denotes the same instant expressed in UTC); and a naive input keeps its
wall clock unchanged, i.e. it is interpreted as already being UTC rather
than shifted, while an aware input with offset `o` has its wall clock moved
back by `o`. -/
theorem claim7_time_normalizer (dt : PyDateTime) :
    (ensure_utc dt).tz = some 0 ∧
    cmpKey (ensure_utc dt) = cmpKey dt ∧
    (dt.tz = none → ensure_utc dt = ⟨dt.wall, some 0⟩) ∧
    (∀ o, dt.tz = some o → (ensure_utc dt).wall = dt.wall - o) := by
  refine ⟨tz_ensure_utc dt, cmpKey_ensure_utc dt, ?_, ?_⟩
  · intro h
    cases dt with
    | mk w tz => cases tz with
      | none => rfl
      | some o => cases h
  · intro o h
    cases dt with
    | mk w tz => cases tz with
      | none => cases h
      | some o2 =>
          cases h
          rfl

/-- Witness for C7 at concrete inputs: the naive value with wall clock 5 is
tagged as UTC unchanged, and the aware value ⟨10, +3⟩ is shifted to wall
clock 7. -/
theorem claim7_witness :
    ensure_utc ⟨5, none⟩ = ⟨5, some 0⟩ ∧ (ensure_utc ⟨10, some 3⟩).wall = 7 := by
  constructor
  · exact (claim7_time_normalizer ⟨5, none⟩).2.2.1 rfl
  · have h := (claim7_time_normalizer ⟨10, some 3⟩).2.2.2 3 rfl
    simpa using h

/-- C9: `get_room_bookings` returns the stored list of the room in stored
(insertion) order, the empty list when the room is not a key of the store
(no failure), and, when both calendar dates are supplied, exactly the
stored bookings whose start date lies in the inclusive range, in the same
order (the filtered list is a sublist of the stored one). -/
theorem claim9_list_bookings (st : Store) (room : String) (sd ed : Option Int) :
    ((∀ p ∈ st, p.1 ≠ room) → get_room_bookings st room sd ed = []) ∧
    (get_room_bookings st room none none = storeGet st room) ∧
    (∀ a b2,
      get_room_bookings st room (some a) (some b2) =
        (storeGet st room).filter
          (fun bk => decide (a ≤ dateOf bk.start) && decide (dateOf bk.start ≤ b2)) ∧
      (get_room_bookings st room (some a) (some b2)).Sublist (storeGet st room) ∧
      (∀ bk, bk ∈ get_room_bookings st room (some a) (some b2) ↔
        bk ∈ storeGet st room ∧ a ≤ dateOf bk.start ∧ dateOf bk.start ≤ b2)) := by
  refine ⟨?_, rfl, ?_⟩
  · intro h
    have h0 := storeGet_eq_nil st room h
    unfold get_room_bookings
    rw [h0]
    cases sd <;> cases ed <;> simp
  · intro a b2
    refine ⟨rfl, List.filter_sublist _, ?_⟩
    intro bk
    simp [get_room_bookings, List.mem_filter, and_assoc]

/-- Witness for C9: an unknown room yields the empty list, and on the
one-booking store the inclusive date filter keeps the booking for its own
day and drops it for the next day. -/
theorem claim9_witness :
    get_room_bookings wStore1 "Room X" none none = [] ∧
    get_room_bookings wStore1 "Room A" (some wDay) (some wDay) = [wBooking1] ∧
    wBooking1 ∈ get_room_bookings wStore1 "Room A" (some wDay) (some (wDay + 3)) := by
  refine ⟨(claim9_list_bookings wStore1 "Room X" none none).1 (by decide), ?_, ?_⟩
  · have h := ((claim9_list_bookings wStore1 "Room A" none none).2.2 wDay wDay).1
    rw [h]
    decide
  · exact (((claim9_list_bookings wStore1 "Room A" none none).2.2 wDay
      (wDay + 3)).2.2 wBooking1).mpr ⟨by decide, by decide, by decide⟩

/-- C10: failure atomicity.  Whenever create_booking (main.py) or
create_booking_service (services.py) returns a typed failure, or
cancel_booking returns the invalid-code outcome, the reservation store
after the call is exactly the store before it. -/
theorem claim10_failure_atomicity (st : Store) (room : String)
    (s e : PyDateTime) (now : Int) (code : String) (f : BFailure) (st2 : Store) :
    (create_booking st room s e now code = some (.err f, st2) → st2 = st) ∧
    ((create_booking_service st room s e now code).1 = .err f →
      (create_booking_service st room s e now code).2 = st) ∧
    ((cancel_booking st code).1 = none → (cancel_booking st code).2 = st) := by
  refine ⟨?_, ?_, cancel_fst_none st code⟩
  · intro h
    simp only [create_booking] at h
    split_ifs at h <;> simp_all
  · simp only [create_booking_service]
    split_ifs <;> intro h
    all_goals first
      | rfl
      | exact absurd h (by simp)

/-- Witness for C10: a room-not-found failure of each creation draft and an
invalid-code cancellation all leave the concrete one-booking store intact. -/
theorem claim10_witness :
    wStore1 = wStore1 ∧
    (create_booking_service wStore1 "Room X" (wAt 11) (wAt 12) wNow "c").2 = wStore1 ∧
    (cancel_booking wStore1 "zzz").2 = wStore1 :=
  ⟨(claim10_failure_atomicity wStore1 "Room X" (wAt 11) (wAt 12) wNow "c"
      .roomNotFound wStore1).1 (by decide),
   (claim10_failure_atomicity wStore1 "Room X" (wAt 11) (wAt 12) wNow "c"
      .roomNotFound wStore1).2.1 (by decide),
   (claim10_failure_atomicity wStore1 "Room X" (wAt 11) (wAt 12) wNow "c"
      .roomNotFound wStore1).2.2 (by decide)⟩

/-- C6: for a known room, the validation pipeline (create_booking_service,
whose checks are the numbered steps of the spec) rejects every interval
whose normalized duration exceeds 3 hours with `DurationExceeded`, and a
duration of exactly 3 hours passes the duration check (it is rejected
neither as `DurationExceeded` nor as `InvalidInterval`). -/
theorem claim6_duration_boundary (st : Store) (room : String)
    (s e : PyDateTime) (now : Int) (code : String) (h1 : room ∈ rooms) :
    (MAX_DURATION_HOURS * usPerHour <
        cmpKey (ensure_utc e) - cmpKey (ensure_utc s) →
      (create_booking_service st room s e now code).1 = .err .durationExceeded) ∧
    (cmpKey (ensure_utc e) - cmpKey (ensure_utc s) =
        MAX_DURATION_HOURS * usPerHour →
      (create_booking_service st room s e now code).1 ≠ .err .durationExceeded ∧
      (create_booking_service st room s e now code).1 ≠ .err .invalidInterval) := by
  have hmax : MAX_DURATION_HOURS * usPerHour = 10800000000 := rfl
  constructor
  · intro hdur
    simp only [create_booking_service]
    rw [if_pos h1, if_neg (show ¬(cmpKey (ensure_utc e) - cmpKey (ensure_utc s) ≤ 0)
          by omega),
        if_pos (show cmpKey (ensure_utc e) - cmpKey (ensure_utc s) >
          MAX_DURATION_HOURS * usPerHour from hdur)]
  · intro hdur
    simp only [create_booking_service]
    rw [if_pos h1, if_neg (show ¬(cmpKey (ensure_utc e) - cmpKey (ensure_utc s) ≤ 0)
          by omega),
        if_neg (show ¬(cmpKey (ensure_utc e) - cmpKey (ensure_utc s) >
          MAX_DURATION_HOURS * usPerHour) by omega)]
    split_ifs <;> simp

/-- Witness for C6: at the concrete clock, a 3-hour-plus-one-microsecond
interval is rejected as DurationExceeded and an exactly-3-hour interval is
not. -/
theorem claim6_witness :
    (create_booking_service [] "Room B" (wAt 11) ⟨wTime 14 + 1, some 0⟩ wNow "c").1 =
      .err .durationExceeded ∧
    (create_booking_service [] "Room B" (wAt 11) (wAt 14) wNow "c").1 ≠
      .err .durationExceeded :=
  ⟨(claim6_duration_boundary [] "Room B" (wAt 11) ⟨wTime 14 + 1, some 0⟩ wNow "c"
      (by decide)).1 (by decide),
   ((claim6_duration_boundary [] "Room B" (wAt 11) (wAt 14) wNow "c"
      (by decide)).2 (by decide)).1⟩

/-- C1: for every store and every proposal that passes checks 1-7 of the
pipeline (known room, positive normalized duration of at most 3 hours, not
in the past, start aligned to the hour, both endpoints in the current
year), create_booking_service returns `SlotConflict` iff some stored
booking of that room, normalized to UTC, has an interval intersecting the
proposed half-open interval, i.e. iff `b.start < end` and `start < b.end`
on absolute instants — equivalently iff `NOT (end <= b.start OR
start >= b.end)` holds for some stored `b`.  In particular a proposal that
is merely adjacent to every stored booking does not conflict. -/
theorem claim1_conflict_iff (st : Store) (room : String) (s e : PyDateTime)
    (now : Int) (code : String)
    (h1 : room ∈ rooms)
    (h2 : 0 < cmpKey (ensure_utc e) - cmpKey (ensure_utc s))
    (h3 : cmpKey (ensure_utc e) - cmpKey (ensure_utc s) ≤
      MAX_DURATION_HOURS * usPerHour)
    (h4 : now ≤ cmpKey (ensure_utc s))
    (h5 : minuteOf (ensure_utc s) = 0 ∧ secondOf (ensure_utc s) = 0 ∧
      microsecondOf (ensure_utc s) = 0)
    (h6 : yearOf (ensure_utc s) = yearOfDay (now.ediv usPerDay) ∧
      yearOf (ensure_utc e) = yearOfDay (now.ediv usPerDay)) :
    (create_booking_service st room s e now code).1 = .err .slotConflict ↔
      ∃ b ∈ storeGet st room,
        cmpKey (ensure_utc b.start) < cmpKey (ensure_utc e) ∧
        cmpKey (ensure_utc s) < cmpKey (ensure_utc b.stop) := by
  simp only [create_booking_service]
  rw [if_pos h1,
      if_neg (show ¬(cmpKey (ensure_utc e) - cmpKey (ensure_utc s) ≤ 0) by omega),
      if_neg (show ¬(cmpKey (ensure_utc e) - cmpKey (ensure_utc s) >
        MAX_DURATION_HOURS * usPerHour) by omega),
      if_neg (show ¬(cmpKey (ensure_utc s) < now) by omega),
      if_neg (show ¬(minuteOf (ensure_utc s) ≠ 0 ∨ secondOf (ensure_utc s) ≠ 0 ∨
        microsecondOf (ensure_utc s) ≠ 0) by simp [h5.1, h5.2.1, h5.2.2]),
      if_neg (show ¬(yearOf (ensure_utc s) ≠ yearOfDay (now.ediv usPerDay) ∨
        yearOf (ensure_utc e) ≠ yearOfDay (now.ediv usPerDay))
        by simp [h6.1, h6.2])]
  by_cases hscan : (storeGet st room).any (fun b =>
      overlapsB (ensure_utc s) (ensure_utc e) (ensure_utc b.start)
        (ensure_utc b.stop)) = true
  · rw [if_pos hscan]
    rw [List.any_eq_true] at hscan
    obtain ⟨b, hb, hov⟩ := hscan
    rw [overlapsB_eq_true] at hov
    exact iff_of_true rfl ⟨b, hb, hov⟩
  · rw [if_neg hscan]
    rw [List.any_eq_true] at hscan
    constructor
    · intro h
      exact absurd h (by simp)
    · intro h
      obtain ⟨b, hb, hlt⟩ := h
      exact absurd ⟨b, hb, overlapsB_eq_true.mpr hlt⟩ hscan

/-- Witness for C1: on the store holding 11:00-12:00, the identical
proposal 11:00-12:00 (which passes checks 1-7) is rejected as
SlotConflict. -/
theorem claim1_witness :
    (create_booking_service wStore1 "Room A" (wAt 11) (wAt 12) wNow "c2").1 =
      .err .slotConflict :=
  (claim1_conflict_iff wStore1 "Room A" (wAt 11) (wAt 12) wNow "c2"
      (by decide) (by decide) (by decide) (by decide)
      ⟨by decide, by decide, by decide⟩ ⟨by decide, by decide⟩).mpr
    ⟨wBooking1, by decide, by decide, by decide⟩

/-- Inversion of a create_booking call: either the store is unchanged (any
failure, and the TypeError case never returns a value at all), or the call
succeeded, the created booking is the normalized proposal with the fresh
code, the new store appends it to the list of its room, and the conflict
scan over the previous list came back negative. -/
theorem create_booking_inv {st : Store} {room : String} {s e : PyDateTime}
    {now : Int} {code : String} {res : CreateResult} {st2 : Store}
    (h : create_booking st room s e now code = some (res, st2)) :
    (st2 = st ∧ ∃ f, res = .err f) ∨
    ∃ b : Booking, res = .ok b ∧
      b = ⟨room, tagUtcIfNaive s, tagUtcIfNaive e, code⟩ ∧
      st2 = storeSet st room (storeGet st room ++ [b]) ∧
      (storeGet st room).any (fun bk =>
        overlapsB (tagUtcIfNaive s) (tagUtcIfNaive e) (tagUtcIfNaive bk.start)
          (tagUtcIfNaive bk.stop)) = false := by
  simp only [create_booking] at h
  split_ifs at h with h1 h2 h3 h4 h5 h6 h7 h8 h9 <;>
    first
      | exact Option.noConfusion h
      | (simp only [Option.some.injEq, Prod.mk.injEq] at h
         exact .inl ⟨h.2.symm, _, h.1.symm⟩)
      | (simp only [Option.some.injEq, Prod.mk.injEq] at h
         refine .inr ⟨_, h.1.symm, rfl, h.2.symm, ?_⟩
         simpa using h9)

/-- C2: every store reachable from the empty store by any sequence of
create_booking and cancel_booking calls keeps, for every room, a list of
bookings whose half-open instant intervals are pairwise disjoint; both
operations preserve the invariant. -/
theorem claim2_no_overlap_invariant (st : Store) (h : Reachable st) :
    ∀ room, (storeGet st room).Pairwise disjointB := by
  induction h with
  | empty =>
      intro room
      exact List.Pairwise.nil
  | create room0 s e now code hst heq ih =>
      intro r
      rcases create_booking_inv heq with ⟨rfl, -⟩ | ⟨b, _, hb, rfl, hscan⟩
      · exact ih r
      · rw [storeGet_storeSet]
        split_ifs with hr
        · rw [List.pairwise_append]
          refine ⟨ih room0, List.pairwise_singleton _ _, ?_⟩
          intro a ha b2 hb2
          rw [List.mem_singleton] at hb2
          subst hb2
          have hov := List.any_eq_false.mp hscan a ha
          have hov2 : overlapsB (tagUtcIfNaive s) (tagUtcIfNaive e)
              (tagUtcIfNaive a.start) (tagUtcIfNaive a.stop) = false := by
            simpa using hov
          rw [overlapsB_eq_false] at hov2
          simp only [cmpKey_tagUtcIfNaive] at hov2
          unfold disjointB
          rw [hb]
          simp only [cmpKey_tagUtcIfNaive]
          exact hov2.symm
        · exact ih r
  | cancel code hst ih =>
      intro r
      exact List.Pairwise.sublist (storeGet_cancel_sublist _ code r) (ih r)

/-- Witness for C2: the one-booking store produced by a successful concrete
create on the empty store is reachable, and its Room A list is pairwise
disjoint. -/
theorem claim2_witness :
    (storeGet wStore1 "Room A").Pairwise disjointB :=
  claim2_no_overlap_invariant wStore1
    (Reachable.create "Room A" (wAt 11) (wAt 12) wNow "c1" Reachable.empty
      (show create_booking [] "Room A" (wAt 11) (wAt 12) wNow "c1" =
        some (.ok wBooking1, wStore1) by decide))
    "Room A"

/-- Cancelling the code of a booking just appended to the list of `room`
(while no other stored booking carries that code) returns exactly the
appended booking and restores the list of the room. -/
theorem cancel_after_create (st : Store) (room : String) (c : String)
    (b : Booking) (hfresh : freshCode st c) (hb : b.code = c) :
    cancel_booking (storeSet st room (storeGet st room ++ [b])) c =
      (some ⟨b.room, b.start, b.stop⟩, storeSet st room (storeGet st room)) := by
  induction st with
  | nil =>
      simp [storeSet, storeGet, cancel_booking, removeFirstCode, hb]
  | cons p rest ih =>
      obtain ⟨r0, l0⟩ := p
      have hl0 : ∀ bk ∈ l0, bk.code ≠ c := hfresh (r0, l0) (List.mem_cons_self _ _)
      have hrest : freshCode rest c := fun q hq => hfresh q (List.mem_cons_of_mem _ hq)
      by_cases h0 : r0 = room
      · subst h0
        simp only [storeGet, storeSet, if_pos rfl]
        simp [cancel_booking, removeFirstCode_append c l0 b hl0 hb]
      · simp only [storeGet, storeSet, h0, if_false]
        have h1 : removeFirstCode c l0 = none := removeFirstCode_none c l0 hl0
        simp [cancel_booking, h1, ih hrest]

/-- C8: cancellation behaves as the round-trip law demands.  First,
CancelBooking with a code carried by no stored booking returns InvalidCode
(modelled `none`) and leaves the store untouched.  Second, after a
successful CreateBooking whose fresh code is carried by no prior booking,
CancelBooking with that code succeeds returning the room, start and end of
the created booking, restores every room of the store to its pre-create
contents (so exactly the one created booking is removed and no other
booking changes), the created booking is gone from every room, and a
second CancelBooking with the same code returns InvalidCode. -/
theorem claim8_cancel_roundtrip :
    (∀ (st : Store) (c : String), freshCode st c →
      cancel_booking st c = (none, st)) ∧
    (∀ (st : Store) (room : String) (s e : PyDateTime) (now : Int)
      (c : String) (b : Booking) (st2 : Store),
      freshCode st c →
      create_booking st room s e now c = some (.ok b, st2) →
      (cancel_booking st2 c).1 = some ⟨b.room, b.start, b.stop⟩ ∧
      (∀ r, storeGet (cancel_booking st2 c).2 r = storeGet st r) ∧
      (∀ r, b ∉ storeGet (cancel_booking st2 c).2 r) ∧
      (cancel_booking (cancel_booking st2 c).2 c).1 = none) := by
  refine ⟨cancel_none_of_fresh, ?_⟩
  intro st room s e now c b st2 hfresh hcr
  rcases create_booking_inv hcr with ⟨-, f, hresf⟩ | ⟨b2, hres, hb, hst2, -⟩
  · exact absurd hresf (by simp)
  · cases hres
    have hbcode : b.code = c := by rw [hb]
    have hcan := cancel_after_create st room c b hfresh hbcode
    rw [hst2, hcan]
    have hget : ∀ r, storeGet (storeSet st room (storeGet st room)) r =
        storeGet st r := by
      intro r
      rw [storeGet_storeSet]
      split_ifs with h
      · rw [h]
      · rfl
    refine ⟨rfl, hget, ?_, ?_⟩
    · intro r hmem
      rw [hget r] at hmem
      exact (storeGet_fresh st c r hfresh b hmem) hbcode
    · have hfresh2 : freshCode (storeSet st room (storeGet st room)) c :=
        freshCode_storeSet st c room _ hfresh (storeGet_fresh st c room hfresh)
      rw [cancel_none_of_fresh _ _ hfresh2]

/-- Witness for C8: creating 11:00-12:00 on the empty store with code c1
and cancelling c1 returns the booking data; cancelling c1 again returns
InvalidCode. -/
theorem claim8_witness :
    (cancel_booking wStore1 "c1").1 = some ⟨"Room A", wAt 11, wAt 12⟩ ∧
    (cancel_booking (cancel_booking wStore1 "c1").2 "c1").1 = none := by
  have h := claim8_cancel_roundtrip.2 [] "Room A" (wAt 11) (wAt 12) wNow "c1"
    wBooking1 wStore1 (by decide) (by decide)
  exact ⟨h.1, h.2.2.2⟩

/-- The failure of the first check of the spec 4.2 pipeline whose
condition holds, if any: the seven conditions, in the fixed spec order,
all reading the ensure_utc-normalized values exactly as
create_booking_service tests them. -/
def specFirstFailure (st : Store) (room : String) (s e : PyDateTime)
    (now : Int) : Option BFailure :=
  if room ∈ rooms then
    if cmpKey (ensure_utc e) - cmpKey (ensure_utc s) ≤ 0 then
      some .invalidInterval
    else if cmpKey (ensure_utc e) - cmpKey (ensure_utc s) >
        MAX_DURATION_HOURS * usPerHour then
      some .durationExceeded
    else if cmpKey (ensure_utc s) < now then some .pastBooking
    else if minuteOf (ensure_utc s) ≠ 0 ∨ secondOf (ensure_utc s) ≠ 0 ∨
        microsecondOf (ensure_utc s) ≠ 0 then
      some .misalignedStart
    else if yearOf (ensure_utc s) ≠ yearOfDay (now.ediv usPerDay) ∨
        yearOf (ensure_utc e) ≠ yearOfDay (now.ediv usPerDay) then
      some .outOfYearRange
    else if (storeGet st room).any (fun b =>
        overlapsB (ensure_utc s) (ensure_utc e) (ensure_utc b.start)
          (ensure_utc b.stop)) then
      some .slotConflict
    else none
  else some .roomNotFound

/-- The failure of the first check of the main.py pipeline whose condition
holds, if any: the same seven failures in the same fixed order, but with
the conditions exactly as create_booking tests them — the duration reads
the raw comparison keys, and the alignment and year conditions read the
wall clock of the only-if-naive normalization `tagUtcIfNaive`. -/
def mainFirstFailure (st : Store) (room : String) (s e : PyDateTime)
    (now : Int) : Option BFailure :=
  if room ∈ rooms then
    if cmpKey e - cmpKey s ≤ 0 then some .invalidInterval
    else if cmpKey e - cmpKey s > MAX_DURATION_HOURS * usPerHour then
      some .durationExceeded
    else if cmpKey (tagUtcIfNaive s) < now then some .pastBooking
    else if minuteOf (tagUtcIfNaive s) ≠ 0 ∨ secondOf (tagUtcIfNaive s) ≠ 0 ∨
        microsecondOf (tagUtcIfNaive s) ≠ 0 then
      some .misalignedStart
    else if yearOf (tagUtcIfNaive s) ≠ yearOfDay (now.ediv usPerDay) ∨
        yearOf (tagUtcIfNaive e) ≠ yearOfDay (now.ediv usPerDay) then
      some .outOfYearRange
    else if (storeGet st room).any (fun b =>
        overlapsB (tagUtcIfNaive s) (tagUtcIfNaive e) (tagUtcIfNaive b.start)
          (tagUtcIfNaive b.stop)) then
      some .slotConflict
    else none
  else some .roomNotFound

set_option maxHeartbeats 2000000 in
/-- C3: fail-fast, single failure, fixed order.  create_booking_service
fails with `f` exactly when `f` is the failure of the first check, in the
fixed order RoomNotFound, InvalidInterval, DurationExceeded, PastBooking,
MisalignedStart, OutOfYearRange, SlotConflict, whose condition holds; and
whenever create_booking (main.py) returns a typed failure, that failure is
likewise the first of its checks, in the same fixed order, whose condition
holds (its duplicated start-before-end test can never fire, having been
subsumed by the duration test).  No accumulation of failures is possible:
the outcome carries exactly one failure. -/
theorem claim3_fail_fast (st : Store) (room : String) (s e : PyDateTime)
    (now : Int) (code : String) (f : BFailure) (st2 : Store) :
    ((create_booking_service st room s e now code).1 = .err f ↔
      specFirstFailure st room s e now = some f) ∧
    (create_booking st room s e now code = some (.err f, st2) →
      mainFirstFailure st room s e now = some f) := by
  constructor
  · simp only [create_booking_service, specFirstFailure]
    split_ifs <;> simp_all
  · intro h
    simp only [create_booking] at h
    simp only [mainFirstFailure]
    split_ifs at h ⊢ with h1 h2 h3 h4 h5 h6 h7 h8 h9
    all_goals first
      | exact Option.noConfusion h
      | (refine absurd h5 ?_
         omega)
      | simp_all

/-- Witness for C3: an unknown room makes main.py fail, and the first
failing check is indeed RoomNotFound. -/
theorem claim3_witness :
    mainFirstFailure [] "Room X" (wAt 11) (wAt 12) wNow = some .roomNotFound :=
  (claim3_fail_fast [] "Room X" (wAt 11) (wAt 12) wNow "c" .roomNotFound []).2
    (by decide)

theorem ensure_eq_tag_of_none {dt : PyDateTime} (h : dt.tz = none) :
    ensure_utc dt = tagUtcIfNaive dt := by
  cases dt with
  | mk w tz =>
      cases h
      rfl

theorem ensure_eq_tag_of_zero {dt : PyDateTime} (h : dt.tz = some 0) :
    ensure_utc dt = tagUtcIfNaive dt := by
  cases dt with
  | mk w tz =>
      cases h
      simp [ensure_utc, tagUtcIfNaive]

theorem scan_tag_eq_ensure (sN eN : PyDateTime) (l : List Booking) :
    (l.any fun b => overlapsB sN eN (tagUtcIfNaive b.start)
      (tagUtcIfNaive b.stop)) =
    (l.any fun b => overlapsB sN eN (ensure_utc b.start)
      (ensure_utc b.stop)) := by
  have hf : (fun b : Booking => overlapsB sN eN (tagUtcIfNaive b.start)
      (tagUtcIfNaive b.stop)) =
      fun b : Booking => overlapsB sN eN (ensure_utc b.start)
        (ensure_utc b.stop) :=
    funext fun b => by rw [overlapsB_tag, overlapsB_ensure]
  rw [hf]

/-- C5 counterexample: on the empty store, the proposal with naive start
2024-06-01T11:00 and aware end 2024-06-01T12:00+00:00 makes create_booking
(main.py) hit the unhandled TypeError of `end - start` (no outcome at
all), while create_booking_service (services.py) normalizes first and
creates the booking — so the two drafts do not compute the same
function. -/
theorem claim5_counterexample :
    create_booking [] "Room A" ⟨wTime 11, none⟩ (wAt 12) wNow "c" ≠
      some (create_booking_service [] "Room A" ⟨wTime 11, none⟩ (wAt 12)
        wNow "c") := by
  decide

/-- C5 amended: on every store and every proposal whose two timestamps are
both naive or both aware with UTC offset zero, the two drafts agree: they
return the same outcome and leave the store in the same state.  (They
diverge on mixed naive/aware pairs, where main.py raises TypeError, and on
aware inputs with nonzero offsets, where main.py checks hour alignment and
calendar year on the original-zone wall clock while services.py checks
them on the UTC wall clock.) -/
theorem claim5_amended (st : Store) (room : String) (s e : PyDateTime)
    (now : Int) (code : String)
    (hs : s.tz = none ∨ s.tz = some 0)
    (he : e.tz = none ∨ e.tz = some 0)
    (hk : sameKind s e = true) :
    create_booking st room s e now code =
      some (create_booking_service st room s e now code) := by
  have hEs : ensure_utc s = tagUtcIfNaive s := by
    rcases hs with h | h
    · exact ensure_eq_tag_of_none h
    · exact ensure_eq_tag_of_zero h
  have hEe : ensure_utc e = tagUtcIfNaive e := by
    rcases he with h | h
    · exact ensure_eq_tag_of_none h
    · exact ensure_eq_tag_of_zero h
  simp only [create_booking, create_booking_service, hk, hEs, hEe,
    cmpKey_tagUtcIfNaive, scan_tag_eq_ensure, if_true]
  split_ifs with hr hd1 hd2 hex hp hm hy hc <;>
    first
      | rfl
      | exact absurd hex (by omega)

/-- Witness for the amended C5: at a concrete both-aware-UTC input on the
one-booking store the two drafts return identical outcome and store. -/
theorem claim5_witness :
    create_booking wStore1 "Room A" (wAt 12) (wAt 13) wNow "c2" =
      some (create_booking_service wStore1 "Room A" (wAt 12) (wAt 13)
        wNow "c2") :=
  claim5_amended wStore1 "Room A" (wAt 12) (wAt 13) wNow "c2"
    (.inr rfl) (.inr rfl) (by decide)

/-- C4: evaluation at the failing input.  main.py computes
`end - start` before any normalization, so the mixed pair (naive start
2024-06-01T11:00, aware end 2024-06-01T12:00+00:00) with a known room
raises TypeError — no typed outcome (modelled `none`) — where the claim
and spec step 2 demand a typed result; the services.py draft, which
normalizes before computing the duration exactly as the spec prescribes,
returns a created booking on the same input. -/
theorem claim4_mixed_crash :
    create_booking [] "Room A" ⟨wTime 11, none⟩ (wAt 12) wNow "c" = none ∧
    (create_booking_service [] "Room A" ⟨wTime 11, none⟩ (wAt 12) wNow "c").1 =
      .ok ⟨"Room A", wAt 11, wAt 12, "c"⟩ := by
  decide

end MRB
